import Mathlib

/-!
# Workspace discovery and changed-project mapping: a shallow embedding

This file embeds the two core functions of the repository's developer-workflow
scripts and proves the specified properties about them:

* `discover_projects` (in `scripts/utils/task_utils.py`): expands the
  `tool.uv.workspace.members` patterns of a pyproject manifest into project
  paths, applying `exclude` patterns afterwards;
* `get_changed_projects` (in `scripts/run_tasks_in_changed_agents.py`): maps a
  list of changed file paths to the set of workspace projects that own them.

Modelling decisions:

* Python `pathlib.PurePosixPath` values are modelled by `PyPath`: an
  absoluteness flag plus the list of path components.  Parsing a string into a
  path collapses repeated slashes and single-dot components, as `pathlib` does.
* The parsed TOML document is modelled by the `Toml` tree (`task_utils` only
  distinguishes tables from the string-list leaves it iterates over).
  The manifest file itself is a `ManifestFile`: missing (Python raises
  `FileNotFoundError`), unparsable (`tomli.TOMLDecodeError`), or parsed data.
  The two failure classes are the spec's `ManifestNotFoundError` and
  `ManifestParseError`; a `KeyError` while reaching
  `data["tool"]["uv"]["workspace"]["members"]` falls in the parse class.
* `glob.glob(pattern, root_dir=manifest_dir)` is a filesystem query; it is
  modelled by an oracle `globFn : String → List String` giving, for each
  pattern, the list of matching relative path strings in the manifest
  directory.  A fixed oracle is one filesystem snapshot.
* Python `set` results are modelled by `Finset PyPath`.
-/

/-- A `pathlib` pure POSIX path: absoluteness flag and path components. -/
structure PyPath where
  absolute : Bool
  parts : List String
deriving DecidableEq, Repr

/-- Split a character list at `/` separators (the semantics of
`String.splitOn "/"`, written structurally so that it evaluates). -/
def splitSlash : List Char → List Char → List String
  | [], acc => [String.mk acc.reverse]
  | c :: rest, acc =>
    if c = '/' then String.mk acc.reverse :: splitSlash rest []
    else splitSlash rest (c :: acc)

/-- Parse a path string the way `pathlib.PurePosixPath` does: the path is
absolute iff the string starts with `/`; repeated slashes and single-dot
components are collapsed (while `..` components are kept). -/
def parsePath (s : String) : PyPath :=
  ⟨match s.data with | '/' :: _ => true | _ => false,
   (splitSlash s.data []).filter (fun c => !(c == "") && !(c == "."))⟩

/-- The `/` operator of `pathlib`: joining with an absolute right operand
discards the left operand, otherwise the components are concatenated. -/
def joinPy (a b : PyPath) : PyPath :=
  if b.absolute then b else ⟨a.absolute, a.parts ++ b.parts⟩

/-- `p.relative_to(base)` succeeds iff the anchors agree and `base`'s
components are a prefix of `p`'s components (`PurePath.relative_to`). -/
def isRelTo (p base : PyPath) : Bool :=
  p.absolute == base.absolute && decide (base.parts <+: p.parts)

/-- The fragment of a parsed TOML document that `task_utils` inspects:
nested tables, with the string lists it iterates over as leaves. -/
inductive Toml where
  | table (entries : List (String × Toml))
  | strings (vals : List String)

/-- `t[key]`: subscripting a table looks the key up; subscripting a
string list raises (`TypeError`), modelled as `none`. -/
def Toml.sub (t : Toml) (key : String) : Option Toml :=
  match t with
  | .table entries => entries.lookup key
  | .strings _ => none

/-- Iterating a TOML value in Python: a string list yields its elements, a
table (dict) yields its keys. -/
def Toml.asStrings : Toml → List String
  | .table entries => entries.map Prod.fst
  | .strings vals => vals

/-- The state of the manifest file: absent, present but not valid TOML, or
parsed into a document. -/
inductive ManifestFile where
  | missing
  | unparsable
  | parsed (data : Toml)

/-- The spec's error taxonomy for the Resolver. -/
inductive DiscoverError where
  | manifestNotFound
  | manifestParse
deriving DecidableEq, Repr

/-- `data["tool"]["uv"]["workspace"]` — the chain of subscripts performed by
`discover_projects`; `none` models a `KeyError`/`TypeError` along the way. -/
def workspaceTable (data : Toml) : Option Toml :=
  (data.sub "tool").bind (fun t => (t.sub "uv").bind (fun u => u.sub "workspace"))

/-- The `members` value under the workspace section, when the whole subscript
chain `data["tool"]["uv"]["workspace"]["members"]` succeeds. -/
def membersField (data : Toml) : Option Toml :=
  (workspaceTable data).bind (fun ws => ws.sub "members")

/-- `data["tool"]["uv"]["workspace"].get("exclude", [])` — the exclude pattern
list read by `discover_projects`, defaulting to the empty list. -/
def excludeStrings (data : Toml) : List String :=
  (((workspaceTable data).bind (fun ws => ws.sub "exclude")).map Toml.asStrings).getD []

/-- `"*" in project` — the wildcard test actually performed by the source. -/
def hasStar (s : String) : Bool := s.data.contains '*'

/-- The first loop of `discover_projects`: build `all_projects` by extending
with the glob matches of each starred pattern and appending each literal
pattern as a path. -/
def buildMembers (globFn : String → List String) (patterns : List String) : List PyPath :=
  patterns.foldl
    (fun acc s =>
      if hasStar s then acc ++ (globFn s).map parsePath else acc ++ [parsePath s])
    []

/-- The second loop of `discover_projects`: filter `all_projects` by each
exclude pattern, glob-expanded when starred, compared exactly when literal. -/
def applyExcludes (globFn : String → List String) (excludes : List String)
    (acc : List PyPath) : List PyPath :=
  excludes.foldl
    (fun acc s =>
      if hasStar s then acc.filter (fun p => !((globFn s).map parsePath).contains p)
      else acc.filter (fun p => !(p == parsePath s)))
    acc

/-- `discover_projects` from `scripts/utils/task_utils.py`: open and parse the
manifest, read `tool.uv.workspace.members` (required) and `exclude` (default
`[]`), expand starred patterns through the glob oracle, append literals, then
remove the matches of each exclude pattern.  The returned list is exactly the
Python `all_projects` list. -/
def discoverProjects (file : ManifestFile) (globFn : String → List String) :
    Except DiscoverError (List PyPath) :=
  match file with
  | .missing => .error .manifestNotFound
  | .unparsable => .error .manifestParse
  | .parsed data =>
    match membersField data with
    | none => .error .manifestParse
    | some membersVal =>
      let projects := membersVal.asStrings
      let exclude := excludeStrings data
      .ok (applyExcludes globFn exclude (buildMembers globFn projects))

/-- Normalize a changed-file string to an absolute path: parse it, and prepend
the workspace root when it is not already absolute. -/
def normFile (workspaceRoot : PyPath) (f : String) : PyPath :=
  let p := parsePath f
  if p.absolute then p else joinPy workspaceRoot p

/-- The inner loop of `get_changed_projects`: scan `projects` in order and
return the first project whose absolute directory contains the file. -/
def fileOwner (projects : List PyPath) (workspaceRoot : PyPath) (f : String) :
    Option PyPath :=
  projects.find? (fun project => isRelTo (normFile workspaceRoot f) (joinPy workspaceRoot project))

/-- `get_changed_projects` from `scripts/run_tasks_in_changed_agents.py`:
for each changed file, add the first project (in list order) that contains it
to the result set; files owned by no project are ignored. -/
def getChangedProjects (projects : List PyPath) (changedFiles : List String)
    (workspaceRoot : PyPath) : Finset PyPath :=
  changedFiles.foldl
    (fun acc f =>
      match fileOwner projects workspaceRoot f with
      | some project => insert project acc
      | none => acc)
    ∅

/-! ### Concrete inputs used to instantiate the theorems -/

/-- The glob oracle of a filesystem snapshot in which no pattern matches. -/
def noMatchGlob : String → List String := fun _ => []

/-- A manifest document declaring the given `members` and `exclude` lists. -/
def mkManifest (ms es : List String) : Toml :=
  .table [("tool", .table [("uv", .table [("workspace",
    .table [("members", .strings ms), ("exclude", .strings es)])])])]

/-- A manifest document declaring the given `members` and no `exclude`. -/
def mkManifestNoExclude (ms : List String) : Toml :=
  .table [("tool", .table [("uv", .table [("workspace",
    .table [("members", .strings ms)])])])]

/-- The glob oracle of a snapshot whose manifest directory contains a single
entry `ab`: the glob pattern `a?` matches it, nothing else matches. -/
def qGlob : String → List String := fun p => if p = "a?" then ["ab"] else []

/-! ### Definitions following the spec's words (for refinement claims) -/

/-- Modelled from the spec: whether a pattern contains a glob *wildcard
metacharacter* (`*`, `?` or `[`), as the spec's phrase reads. -/
def isWildcardMeta (s : String) : Bool :=
  s.data.any (fun c => c == '*' || c == '?' || c == '[')

/-- Modelled from the spec: the contribution of one `members` pattern as the
spec states it — glob-expanded when it contains a wildcard metacharacter,
literal otherwise. -/
def memberContribSpec (globFn : String → List String) (s : String) : List PyPath :=
  if isWildcardMeta s then (globFn s).map parsePath else [parsePath s]

/-- How one `exclude` pattern matches a path in the source's second loop:
membership among the glob matches when starred, exact equality when literal. -/
def excludeMatch (globFn : String → List String) (e : String) (p : PyPath) : Bool :=
  if hasStar e then ((globFn e).map parsePath).contains p else p == parsePath e

/-! ### Helper lemmas -/

/-- The member loop produces the in-order concatenation of the per-pattern
contributions: glob matches for starred patterns, the literal path otherwise. -/
theorem buildMembers_eq_flatMap (globFn : String → List String) (ps : List String) :
    buildMembers globFn ps =
      ps.flatMap (fun s => if hasStar s then (globFn s).map parsePath else [parsePath s]) := by
  have step :
      (fun (acc : List PyPath) (s : String) =>
          if hasStar s then acc ++ (globFn s).map parsePath else acc ++ [parsePath s]) =
        fun (acc : List PyPath) (s : String) =>
          acc ++ (if hasStar s then (globFn s).map parsePath else [parsePath s]) := by
    funext acc s
    by_cases h : hasStar s <;> simp [h]
  have aux : ∀ (l : List String) (init : List PyPath),
      l.foldl
          (fun (acc : List PyPath) (s : String) =>
            acc ++ (if hasStar s then (globFn s).map parsePath else [parsePath s])) init =
        init ++ l.flatMap (fun s => if hasStar s then (globFn s).map parsePath else [parsePath s]) := by
    intro l
    induction l with
    | nil => intro init; simp
    | cons s l ih => intro init; simp [ih, List.append_assoc]
  rw [buildMembers, step]
  simpa using aux ps []

/-- Membership in the exclusion loop's result: a path survives iff it was in
the incoming collection and no exclude pattern matches it. -/
theorem mem_applyExcludes (globFn : String → List String) (es : List String) :
    ∀ (l : List PyPath) (p : PyPath),
      p ∈ applyExcludes globFn es l ↔ p ∈ l ∧ ∀ e ∈ es, excludeMatch globFn e p = false := by
  induction es with
  | nil => intro l p; simp [applyExcludes]
  | cons e es ih =>
    intro l p
    have h1 : applyExcludes globFn (e :: es) l =
        applyExcludes globFn es
          (if hasStar e then l.filter (fun q => !((globFn e).map parsePath).contains q)
           else l.filter (fun q => !(q == parsePath e))) := rfl
    rw [h1, ih]
    by_cases h : hasStar e
    · simp only [h, if_true, List.mem_filter, Bool.not_eq_true', List.forall_mem_cons,
        excludeMatch]
      tauto
    · simp only [h, if_false, List.mem_filter, Bool.not_eq_true', List.forall_mem_cons,
        excludeMatch, Bool.false_eq_true]
      tauto

/-- Membership in the Mapper's fold, relative to an arbitrary accumulator. -/
theorem mem_changed_aux (projects : List PyPath) (root : PyPath) :
    ∀ (files : List String) (acc : Finset PyPath) (P : PyPath),
      (P ∈ files.foldl
          (fun acc f =>
            match fileOwner projects root f with
            | some project => insert project acc
            | none => acc) acc) ↔
        P ∈ acc ∨ ∃ f ∈ files, fileOwner projects root f = some P := by
  intro files
  induction files with
  | nil => intro acc P; simp
  | cons f files ih =>
    intro acc P
    rw [List.foldl_cons]
    cases h : fileOwner projects root f with
    | none =>
      rw [show (match none with
            | some project => insert project acc
            | none => acc) = acc from rfl, ih]
      constructor
      · rintro (hc | ⟨g, hg, hP⟩)
        · exact Or.inl hc
        · exact Or.inr ⟨g, List.mem_cons_of_mem _ hg, hP⟩
      · rintro (hc | ⟨g, hg, hP⟩)
        · exact Or.inl hc
        · rcases List.mem_cons.mp hg with rfl | hg'
          · rw [h] at hP; cases hP
          · exact Or.inr ⟨g, hg', hP⟩
    | some pr =>
      rw [show (match some pr with
            | some project => insert project acc
            | none => acc) = insert pr acc from rfl, ih]
      constructor
      · rintro (hc | ⟨g, hg, hP⟩)
        · rcases Finset.mem_insert.mp hc with rfl | hacc
          · exact Or.inr ⟨f, List.mem_cons_self f files, h⟩
          · exact Or.inl hacc
        · exact Or.inr ⟨g, List.mem_cons_of_mem _ hg, hP⟩
      · rintro (hc | ⟨g, hg, hP⟩)
        · exact Or.inl (Finset.mem_insert_of_mem hc)
        · rcases List.mem_cons.mp hg with rfl | hg'
          · rw [h] at hP
            injection hP with e
            exact Or.inl (Finset.mem_insert.mpr (Or.inl e.symm))
          · exact Or.inr ⟨g, hg', hP⟩

/-- Membership in the Mapper's result: a project is reported iff it is the
first owner of some changed file. -/
theorem mem_getChangedProjects (projects : List PyPath) (files : List String)
    (root : PyPath) (P : PyPath) :
    P ∈ getChangedProjects projects files root ↔
      ∃ f ∈ files, fileOwner projects root f = some P := by
  have := mem_changed_aux projects root files ∅ P
  simpa [getChangedProjects] using this

/-- Evaluating the Resolver on an explicitly constructed manifest document. -/
theorem discoverProjects_mkManifest (globFn : String → List String)
    (ms es : List String) :
    discoverProjects (.parsed (mkManifest ms es)) globFn =
      .ok (applyExcludes globFn es (buildMembers globFn ms)) := rfl

/-- Evaluating the Resolver when the manifest declares no `exclude`. -/
theorem discoverProjects_mkManifestNoExclude (globFn : String → List String)
    (ms : List String) :
    discoverProjects (.parsed (mkManifestNoExclude ms)) globFn =
      .ok (buildMembers globFn ms) := rfl

/-! ### Claims -/

/-- C1 counterexample: the claim "the Resolver returns a collection with
duplicates removed, so `members = ["a", "a"]` resolves to exactly `{a}`" is
false on the code: `discover_projects` returns the `all_projects` list as
built, and `members = ["a", "a"]` yields the two-element list `[a, a]`,
which contains a duplicate. -/
theorem claim_C1_counterexample :
    discoverProjects (.parsed (mkManifestNoExclude ["a", "a"])) noMatchGlob =
      .ok [⟨false, ["a"]⟩, ⟨false, ["a"]⟩] ∧
    ¬ ([(⟨false, ["a"]⟩ : PyPath), ⟨false, ["a"]⟩].Nodup) :=
  ⟨rfl, by decide⟩

/-- C1 (amended): `discover_projects` performs no deduplication: for a
manifest whose members are all literal (no `*`) and which declares no
`exclude`, it returns the member patterns as paths in declaration order with
multiplicity preserved, so `members = ["a", "a"]` resolves to the list
`[a, a]`, not to the set `{a}`. -/
theorem claim_C1 (globFn : String → List String) (ms : List String)
    (h : ∀ s ∈ ms, hasStar s = false) :
    discoverProjects (.parsed (mkManifestNoExclude ms)) globFn =
      .ok (ms.map parsePath) := by
  rw [discoverProjects_mkManifestNoExclude, buildMembers_eq_flatMap]
  have aux : ∀ (l : List String), (∀ s ∈ l, hasStar s = false) →
      l.flatMap (fun s => if hasStar s then (globFn s).map parsePath else [parsePath s]) =
        l.map parsePath := by
    intro l
    induction l with
    | nil => intro _; simp
    | cons s l ih =>
      intro hl
      have h1 := hl s (List.mem_cons_self s l)
      simp [h1, ih (fun t ht => hl t (List.mem_cons_of_mem s ht))]
  rw [aux ms h]

/-- C1 witness: the amended claim at `members = ["a", "a"]`: the result keeps
both copies of the literal member. -/
theorem claim_C1_witness :
    discoverProjects (.parsed (mkManifestNoExclude ["a", "a"])) noMatchGlob =
      .ok [⟨false, ["a"]⟩, ⟨false, ["a"]⟩] :=
  claim_C1 noMatchGlob ["a", "a"] (by decide)

/-- C2 counterexample: the claim "if the pattern contains a wildcard
metacharacter it is expanded against the filesystem and every match is added"
is false on the code: the source tests only for `*`.  The pattern `a?`
contains the glob wildcard metacharacter `?`, the filesystem snapshot `qGlob`
has the match `ab` for it, yet the Resolver returns the literal path `a?`
rather than the match, diverging from the spec-side contribution
`memberContribSpec`. -/
theorem claim_C2_counterexample :
    isWildcardMeta "a?" = true ∧
    qGlob "a?" = ["ab"] ∧
    discoverProjects (.parsed (mkManifestNoExclude ["a?"])) qGlob =
      .ok [parsePath "a?"] ∧
    memberContribSpec qGlob "a?" ≠ [parsePath "a?"] :=
  ⟨by decide, rfl, rfl, by decide⟩

/-- C2 (amended): the wildcard test is for the `*` character specifically:
for every members pattern, if the pattern contains `*` it is expanded through
the glob oracle and every match is added in order; otherwise — even if it
contains another glob metacharacter such as `?` or `[` — it is added
literally and unchanged, for every filesystem oracle (hence without
verifying that the path exists). -/
theorem claim_C2 (globFn : String → List String) (ms : List String) :
    discoverProjects (.parsed (mkManifestNoExclude ms)) globFn =
      .ok (ms.flatMap fun s =>
        if hasStar s then (globFn s).map parsePath else [parsePath s]) := by
  rw [discoverProjects_mkManifestNoExclude, buildMembers_eq_flatMap]

/-- C3: the Mapper returns exactly the set of projects P such that some
changed file, normalized by prepending the workspace root when not absolute
(`normFile`), has P's absolute directory as a path-component ancestor
(`isRelTo`) and P is the first such project in the given order; a file
contained in no project contributes nothing, and the empty changed-file list
yields the empty set. -/
theorem claim_C3 (projects : List PyPath) (files : List String) (root : PyPath) :
    (∀ P, P ∈ getChangedProjects projects files root ↔
      ∃ f ∈ files, ∃ pre post, projects = pre ++ P :: post ∧
        isRelTo (normFile root f) (joinPy root P) = true ∧
        ∀ Q ∈ pre, isRelTo (normFile root f) (joinPy root Q) = false) ∧
    getChangedProjects projects ([] : List String) root = ∅ := by
  constructor
  · intro P
    rw [mem_getChangedProjects]
    constructor
    · rintro ⟨f, hf, hP⟩
      rw [fileOwner] at hP
      rcases List.find?_eq_some.mp hP with ⟨hpred, pre, post, hsplit, hpre⟩
      refine ⟨f, hf, pre, post, hsplit, by simpa using hpred, ?_⟩
      intro Q hQ
      simpa using hpre Q hQ
    · rintro ⟨f, hf, pre, post, hsplit, hpred, hpre⟩
      refine ⟨f, hf, ?_⟩
      rw [fileOwner]
      exact List.find?_eq_some.mpr
        ⟨by simpa using hpred, pre, post, hsplit, fun Q hQ => by simpa using hpre Q hQ⟩
  · rfl

/-- C3 witness: the theorem applied at a concrete input: with no changed
files the Mapper returns the empty set. -/
theorem claim_C3_witness :
    getChangedProjects [parsePath "agents/foo"] ([] : List String) ⟨true, []⟩ = ∅ :=
  (claim_C3 [parsePath "agents/foo"] [] ⟨true, []⟩).2

/-- C4: the Resolver fails exactly in the spec's three cases: a missing
manifest file raises the not-found error; an unparsable document raises the
parse error; a parsed document whose `tool.uv.workspace.members` chain is
absent raises the parse error (a malformed manifest is never treated as "no
members"); in every other case no error is raised and the resolved list is
returned.  The four cases are exhaustive over `ManifestFile` and
`membersField`, so errors occur in those cases and only those. -/
theorem claim_C4 (globFn : String → List String) :
    (discoverProjects .missing globFn = .error .manifestNotFound) ∧
    (discoverProjects .unparsable globFn = .error .manifestParse) ∧
    (∀ data, membersField data = none →
      discoverProjects (.parsed data) globFn = .error .manifestParse) ∧
    (∀ data mv, membersField data = some mv →
      discoverProjects (.parsed data) globFn =
        .ok (applyExcludes globFn (excludeStrings data)
              (buildMembers globFn mv.asStrings))) := by
  refine ⟨rfl, rfl, ?_, ?_⟩
  · intro data h
    simp [discoverProjects, h]
  · intro data mv h
    simp [discoverProjects, h]

/-- C4 witness: the theorem applied at concrete inputs: a document with no
workspace section fails with the parse error, and a well-formed document
resolves without error. -/
theorem claim_C4_witness :
    discoverProjects (.parsed (Toml.strings [])) noMatchGlob =
      .error .manifestParse ∧
    discoverProjects (.parsed (mkManifest ["a"] [])) noMatchGlob =
      .ok (applyExcludes noMatchGlob (excludeStrings (mkManifest ["a"] []))
            (buildMembers noMatchGlob ["a"])) :=
  ⟨(claim_C4 noMatchGlob).2.2.1 (Toml.strings []) rfl,
   (claim_C4 noMatchGlob).2.2.2 (mkManifest ["a"] []) (Toml.strings ["a"]) rfl⟩

/-- C5: Mapper ownership respects path-component boundaries, not raw string
prefixes: for every workspace root, the project `agents/foo` is never
recorded as changed because of the changed file `agents/foo2/x.py`; and in
general a project is reported only when some changed file's normalized
components extend the project's absolute directory component-wise. -/
theorem claim_C5 :
    (∀ root : PyPath,
      getChangedProjects [parsePath "agents/foo"] ["agents/foo2/x.py"] root = ∅) ∧
    (∀ (root : PyPath) (projects : List PyPath) (files : List String) (P : PyPath),
      (∀ f ∈ files, ¬ ((joinPy root P).parts <+: (normFile root f).parts)) →
      P ∉ getChangedProjects projects files root) := by
  have general : ∀ (root : PyPath) (projects : List PyPath) (files : List String)
      (P : PyPath),
      (∀ f ∈ files, ¬ ((joinPy root P).parts <+: (normFile root f).parts)) →
      P ∉ getChangedProjects projects files root := by
    intro root projects files P h hmem
    rw [mem_getChangedProjects] at hmem
    rcases hmem with ⟨f, hf, hP⟩
    rw [fileOwner] at hP
    have hpred := List.find?_some hP
    simp only [isRelTo, Bool.and_eq_true, decide_eq_true_eq] at hpred
    exact h f hf hpred.2
  refine ⟨?_, general⟩
  intro root
  rw [Finset.eq_empty_iff_forall_not_mem]
  intro P hmem
  rw [mem_getChangedProjects] at hmem
  rcases hmem with ⟨f, hf, hP⟩
  have hfP : f = "agents/foo2/x.py" := by simpa using hf
  subst hfP
  rw [fileOwner] at hP
  have hPeq : P = parsePath "agents/foo" := by
    simpa using List.mem_of_find?_eq_some hP
  subst hPeq
  have hpred := List.find?_some hP
  simp only [isRelTo, Bool.and_eq_true, decide_eq_true_eq] at hpred
  have h3 : root.parts ++ ["agents", "foo"] <+:
      root.parts ++ ["agents", "foo2", "x.py"] := hpred.2
  have h4 := (List.prefix_append_right_inj root.parts).mp h3
  exact absurd h4 (by decide)

/-- C5 witness: the general part applied at a concrete input: the file
`agents/foo2/x.py` does not extend `agents/foo` component-wise, so the
project is not reported. -/
theorem claim_C5_witness :
    parsePath "agents/foo" ∉
      getChangedProjects [parsePath "agents/foo"] ["agents/foo2/x.py"]
        ⟨true, ["w"]⟩ :=
  claim_C5.2 ⟨true, ["w"]⟩ [parsePath "agents/foo"] ["agents/foo2/x.py"]
    (parsePath "agents/foo") (by decide)

/-- C6: exclusion is applied after inclusion: whenever the Resolver returns a
list, no element of it matches any exclude pattern (glob-matched when the
pattern is starred, exact-matched when literal); in particular a path that
appears literally in `exclude` — for instance one also listed literally in
`members` — is absent from the final result. -/
theorem claim_C6 (globFn : String → List String) (data : Toml) (l : List PyPath)
    (h : discoverProjects (.parsed data) globFn = .ok l) :
    (∀ e ∈ excludeStrings data, ∀ p ∈ l, excludeMatch globFn e p = false) ∧
    (∀ s ∈ excludeStrings data, hasStar s = false → parsePath s ∉ l) := by
  have hl : l = applyExcludes globFn (excludeStrings data)
      (buildMembers globFn ((membersField data).getD (Toml.strings [])).asStrings) := by
    cases hm : membersField data with
    | none => simp [discoverProjects, hm] at h
    | some mv =>
      simp only [discoverProjects, hm, Except.ok.injEq] at h
      rw [← h]
      rfl
  constructor
  · intro e he p hp
    rw [hl] at hp
    exact ((mem_applyExcludes globFn (excludeStrings data) _ p).mp hp).2 e he
  · intro s hs hstar hmem
    rw [hl] at hmem
    have h2 := ((mem_applyExcludes globFn (excludeStrings data) _ _).mp hmem).2 s hs
    simp [excludeMatch, hstar] at h2

/-- C6 witness: the theorem applied at the concrete manifest
`members = ["a", "b"]`, `exclude = ["a"]` (which resolves to `[b]`): the
surviving path `b` matches no exclude pattern, and the excluded literal `a`
is absent. -/
theorem claim_C6_witness :
    excludeMatch noMatchGlob "a" (parsePath "b") = false ∧
    parsePath "a" ∉ [parsePath "b"] :=
  ⟨(claim_C6 noMatchGlob (mkManifest ["a", "b"] ["a"]) [parsePath "b"] rfl).1
      "a" (by decide) (parsePath "b") (by decide),
   (claim_C6 noMatchGlob (mkManifest ["a", "b"] ["a"]) [parsePath "b"] rfl).2
      "a" (by decide) (by decide)⟩

/-- C7: a `members` pattern whose glob expansion is empty contributes nothing
and causes no error (removing it leaves the result unchanged), and a literal
`exclude` entry matching nothing in the working collection at its turn is a
no-op (removing it leaves the result unchanged). -/
theorem claim_C7 (globFn : String → List String) :
    (∀ (pat : String) (ms1 ms2 es : List String),
      hasStar pat = true → globFn pat = [] →
      discoverProjects (.parsed (mkManifest (ms1 ++ pat :: ms2) es)) globFn =
        discoverProjects (.parsed (mkManifest (ms1 ++ ms2) es)) globFn) ∧
    (∀ (ms es1 es2 : List String) (e : String),
      hasStar e = false →
      parsePath e ∉ applyExcludes globFn es1 (buildMembers globFn ms) →
      discoverProjects (.parsed (mkManifest ms (es1 ++ e :: es2))) globFn =
        discoverProjects (.parsed (mkManifest ms (es1 ++ es2))) globFn) := by
  constructor
  · intro pat ms1 ms2 es hstar hglob
    rw [discoverProjects_mkManifest, discoverProjects_mkManifest]
    have hb : buildMembers globFn (ms1 ++ pat :: ms2) =
        buildMembers globFn (ms1 ++ ms2) := by
      rw [buildMembers_eq_flatMap, buildMembers_eq_flatMap]
      simp [List.flatMap_append, hstar, hglob]
    rw [hb]
  · intro ms es1 es2 e hstar hnotin
    rw [discoverProjects_mkManifest, discoverProjects_mkManifest]
    show Except.ok (applyExcludes globFn (es1 ++ e :: es2) (buildMembers globFn ms)) = _
    rw [applyExcludes, applyExcludes, List.foldl_append, List.foldl_append,
      List.foldl_cons]
    have hfix :
        (if hasStar e then
          (List.foldl
            (fun acc s =>
              if hasStar s then acc.filter (fun p => !((globFn s).map parsePath).contains p)
              else acc.filter (fun p => !(p == parsePath s)))
            (buildMembers globFn ms) es1).filter
              (fun p => !((globFn e).map parsePath).contains p)
        else
          (List.foldl
            (fun acc s =>
              if hasStar s then acc.filter (fun p => !((globFn s).map parsePath).contains p)
              else acc.filter (fun p => !(p == parsePath s)))
            (buildMembers globFn ms) es1).filter (fun p => !(p == parsePath e))) =
          List.foldl
            (fun acc s =>
              if hasStar s then acc.filter (fun p => !((globFn s).map parsePath).contains p)
              else acc.filter (fun p => !(p == parsePath s)))
            (buildMembers globFn ms) es1 := by
      rw [if_neg (by simp [hstar])]
      rw [List.filter_eq_self]
      intro p hp
      have hne : p ≠ parsePath e := by
        intro hEq
        exact hnotin (hEq ▸ hp)
      simp [hne]
    rw [hfix]

/-- C7 witness: the theorem applied at concrete inputs against the empty
filesystem snapshot: dropping the matchless glob member `x/*` and dropping
the matchless literal exclude `b` both leave the result unchanged. -/
theorem claim_C7_witness :
    (discoverProjects (.parsed (mkManifest ["a", "x/*"] [])) noMatchGlob =
      discoverProjects (.parsed (mkManifest ["a"] [])) noMatchGlob) ∧
    (discoverProjects (.parsed (mkManifest ["a"] ["b"])) noMatchGlob =
      discoverProjects (.parsed (mkManifest ["a"] [])) noMatchGlob) :=
  ⟨(claim_C7 noMatchGlob).1 "x/*" ["a"] [] [] (by decide) rfl,
   (claim_C7 noMatchGlob).2 ["a"] [] [] "b" (by decide) (by decide)⟩

/-- C8: the Resolver is deterministic with respect to the filesystem
snapshot: its embedding is a pure function of the manifest and the glob
oracle, so two filesystem snapshots answering every glob query identically
give identical results, and repeating the call gives the identical result
(there is no state a call could mutate). -/
theorem claim_C8 (mf : ManifestFile) (globFn globFn' : String → List String)
    (h : ∀ pat, globFn pat = globFn' pat) :
    discoverProjects mf globFn = discoverProjects mf globFn' ∧
    discoverProjects mf globFn = discoverProjects mf globFn :=
  ⟨by rw [funext h], rfl⟩

/-- C8 witness: the theorem applied at a concrete manifest and two
extensionally equal snapshots. -/
theorem claim_C8_witness :
    discoverProjects (.parsed (mkManifest ["a"] [])) noMatchGlob =
      discoverProjects (.parsed (mkManifest ["a"] []))
        (fun p => noMatchGlob p ++ []) :=
  (claim_C8 (.parsed (mkManifest ["a"] [])) noMatchGlob
    (fun p => noMatchGlob p ++ []) (fun _ => (List.append_nil _).symm)).1

/-- C9: every project the Mapper reports is an element of the input projects
list, and with an empty projects list the result is empty regardless of the
changed files supplied. -/
theorem claim_C9 (projects : List PyPath) (files : List String) (root : PyPath) :
    (∀ P ∈ getChangedProjects projects files root, P ∈ projects) ∧
    getChangedProjects ([] : List PyPath) files root = ∅ := by
  constructor
  · intro P hP
    rw [mem_getChangedProjects] at hP
    rcases hP with ⟨f, hf, hP⟩
    rw [fileOwner] at hP
    exact List.mem_of_find?_eq_some hP
  · rw [Finset.eq_empty_iff_forall_not_mem]
    intro P hP
    rw [mem_getChangedProjects] at hP
    rcases hP with ⟨f, hf, hP⟩
    rw [fileOwner] at hP
    simpa using List.mem_of_find?_eq_some hP

/-- C9 witness: the theorem applied at a concrete input where the Mapper
reports a project: that project is indeed in the input list. -/
theorem claim_C9_witness :
    parsePath "agents/foo" ∈ [parsePath "agents/foo"] :=
  (claim_C9 [parsePath "agents/foo"] ["agents/foo/x.py"] ⟨true, []⟩).1
    (parsePath "agents/foo") (by decide)

/-- C10: the Mapper is monotone in its changed-file list: appending further
changed files never removes a project from the result. -/
theorem claim_C10 (projects : List PyPath) (root : PyPath)
    (fs1 fs2 : List String) :
    getChangedProjects projects fs1 root ⊆
      getChangedProjects projects (fs1 ++ fs2) root := by
  intro P hP
  rw [mem_getChangedProjects] at hP
  rw [mem_getChangedProjects]
  rcases hP with ⟨f, hf, h⟩
  exact ⟨f, List.mem_append_left _ hf, h⟩

/-- C10 witness: the theorem applied at a concrete input: the project found
from the first list alone is still found after appending a second list. -/
theorem claim_C10_witness :
    parsePath "agents/foo" ∈
      getChangedProjects [parsePath "agents/foo"]
        (["agents/foo/x.py"] ++ ["README.md"]) ⟨true, []⟩ :=
  claim_C10 [parsePath "agents/foo"] ⟨true, []⟩ ["agents/foo/x.py"]
    ["README.md"] (by decide)
